import Mathlib

/-!
Verification of the jump-flood outline pipeline (JumpFloodEffect) and the
compositing-only outline variant (OutlineEffect).

The GPU shader passes and the orchestration code are embedded shallowly over
exact rationals.  GLSL float arithmetic is idealized as exact arithmetic on
the rationals; the marker channel of the propagation buffer, whose stored
values are Euclidean distances and sentinels, is represented through the
strictly monotone bijection m maps-to sign(m) * m^2 so that distances stay
rational (see Texel below).
-/

/-- GLSL sign for rationals: -1, 0, or 1. -/
def qsgn (q : ℚ) : ℚ := if q < 0 then -1 else if q = 0 then 0 else 1

/-- GLSL clamp(x, lo, hi) = min(max(x, lo), hi). -/
def qclamp (x lo hi : ℚ) : ℚ := min (max x lo) hi

/-- GLSL smoothstep(edge0, edge1, x), by the implementation formula
t = clamp((x - edge0) / (edge1 - edge0), 0, 1); t * t * (3 - 2 * t).
The formula is what every implementation computes, also with reversed
edges (edge0 > edge1), which the EffectMaterial shader relies on. -/
def smoothstepG (e0 e1 x : ℚ) : ℚ :=
  let t := qclamp ((x - e0) / (e1 - e0)) 0 1
  t * t * (3 - 2 * t)

/-- GLSL step(edge, x): 0 if x < edge, else 1. -/
def stepG (edge x : ℚ) : ℚ := if x < edge then 0 else 1

/-- Bounds test used by the JFAMaterial shader on a neighbor coordinate:
0 <= x < size.x and 0 <= y < size.y, no wraparound. -/
def inBounds (size c : ℤ × ℤ) : Prop :=
  0 ≤ c.1 ∧ c.1 < size.1 ∧ 0 ≤ c.2 ∧ c.2 < size.2

instance (size c : ℤ × ℤ) : Decidable (inBounds size c) := by
  unfold inBounds; infer_instance

/-- One texel record of the JFA propagation buffer: channels (seedX, seedY, marker).
The seed field holds the integer raster coordinate kept in the rg channels.
(The shader sometimes stores gl_FragCoord.xy, i.e. the pixel center with a
+0.5 offset, but every later read goes through ivec2, which truncates the
offset away, so the integer coordinate is the faithful content.)
The marker channel is a real number in the shader; here it is represented by
its signed square, z = sign(marker) * marker^2.  The map is a strictly
monotone bijection on the reals, so every shader operation on the marker
(sign test, nonzero test, magnitude comparison, writing a Euclidean distance
or the sentinel 1e4) transports faithfully and z stays rational. -/
structure Texel where
  seed : ℤ × ℤ
  z : ℚ
deriving DecidableEq

/-- Squared Euclidean distance between raster coordinates; the shader value
length(vec2(a - b)) is represented by its square, matching the signed-square
marker encoding. -/
def sqDist (a b : ℤ × ℤ) : ℚ :=
  (((a.1 - b.1) ^ 2 + (a.2 - b.2) ^ 2 : ℤ) : ℚ)

/-- The setter of the negative property of SeedMaterial: uniform value
-1 when true, 1 when false.  The constructor default of the uniform is 1. -/
def seedNegUniform (negative : Bool) : ℤ := if negative then -1 else 1

/-- The marker magnitude written by SeedMaterial is 1e4; under the
signed-square encoding of Texel.z the sentinel appears as (1e4)^2 = 1e8. -/
def sentinelSq : ℚ := 10 ^ 8

/-- SeedMaterial fragment shader: gl_FragColor = vec4(gl_FragCoord.xy,
1e4 * float(negative), 1).  It writes the own coordinate of the fragment and
the signed sentinel. -/
def seedFrag (neg : ℤ) (c : ℤ × ℤ) : Texel := ⟨c, (neg : ℚ) * sentinelSq⟩

/-- Seed-initialization stage of JumpFloodEffect.render at one scissor pixel:
first the full-screen pass with the SeedMaterial instance owned by seedQuad,
whose negative uniform still holds the constructor default 1; then the
selected object is rendered with this.seedMaterial after
seedMaterial.negative = true (uniform -1), overwriting the covered pixels. -/
def seedStage (covered : ℤ × ℤ → Bool) (c : ℤ × ℤ) : Texel :=
  if covered c then seedFrag (seedNegUniform true) c else seedFrag 1 c

/-- Starting flood step in JumpFloodEffect.render:
Math.min(Math.max(targets[0].width, targets[0].height), thickness). -/
def floodStart (bufferWidth bufferHeight thickness : ℕ) : ℕ :=
  min (max bufferWidth bufferHeight) thickness

/-- Math.ceil(step * 0.5) on a natural number. -/
def ceilHalf (s : ℕ) : ℕ := (s + 1) / 2

/-- The sequence of step values at which the flood loop body of
JumpFloodEffect.render executes a pass: the while(true) body always runs
once, exits when step <= 1, else continues with ceil(step / 2). -/
def floodSteps (s : ℕ) : List ℕ :=
  if h : s ≤ 1 then [s]
  else s :: floodSteps (ceilHalf s)
termination_by s
decreasing_by simp only [ceilHalf]; omega

/-- The neighbor offsets produced by the unrolled loop of JFAMaterial
(i = 0..8 with x = i % 3 - 1, y = floor(i / 3) - 1, skipping (0,0)),
in source order. -/
def jfaOffsets : List (ℤ × ℤ) :=
  [(-1, -1), (0, -1), (1, -1), (-1, 0), (1, 0), (-1, 1), (0, 1), (1, 1)]

/-- One unrolled neighbor examination of the JFAMaterial fragment shader,
translated clause by clause.  s0 is resultSign, computed once before the
loop as sign(result.z); c is currCoord; r is the running result; o is the
current offset, scaled by the step uniform.  The shader comparison
dist < result.z * resultSign appears as sqDist .. < s0 * r.z and the write
vec3(.., dist * resultSign) as z := s0 * d2, via the signed-square marker
encoding. -/
def jfaVisit (size : ℤ × ℤ) (src : ℤ × ℤ → Texel) (stp : ℤ) (c : ℤ × ℤ)
    (s0 : ℚ) (r : Texel) (o : ℤ × ℤ) : Texel :=
  let oc : ℤ × ℤ := (c.1 + o.1 * stp, c.2 + o.2 * stp)
  if inBounds size oc then
    let ot := src oc
    if ot.z ≠ 0 then
      if s0 ≠ qsgn ot.z then
        let d2 := sqDist c oc
        if d2 < s0 * r.z then ⟨oc, s0 * d2⟩ else r
      else if ot.seed ≠ oc then
        let d2 := sqDist c ot.seed
        if d2 < s0 * r.z then ⟨ot.seed, s0 * d2⟩ else r
      else r
    else r
  else r

/-- JFAMaterial main body for one pixel of one flood pass.  src is the source
buffer, dst the previous contents of the buffer the pass renders into.  When
the coverage mask reads below 0.5 the fragment executes discard, so nothing
is written and the output keeps dst c (the assignment to gl_FragColor on the
line before the discard has no effect). -/
def jfaPass (size : ℤ × ℤ) (stp : ℤ) (src dst : ℤ × ℤ → Texel)
    (mask : ℤ × ℤ → ℚ) (c : ℤ × ℤ) : Texel :=
  if mask c < 1 / 2 then dst c
  else
    let r0 := src c
    let s0 := qsgn r0.z
    jfaOffsets.foldl (jfaVisit size src stp c s0) r0

/-- The flood-pass neighbor rule exactly as the specification words it: reject
out-of-bounds candidates; skip zero markers; if the candidate sign differs
from the running sign of the pixel, the candidate distance is the Euclidean
distance to the candidate raster coordinate; if the sign matches and the
stored seed coordinate of the candidate differs from its raster coordinate,
the distance to that relayed seed coordinate; keep the candidate of smallest
distance, signed by the original sign s0 of the pixel, replacing the running
result only on a strictly smaller magnitude. -/
def jfaSpecVisit (size : ℤ × ℤ) (src : ℤ × ℤ → Texel) (stp : ℤ) (c : ℤ × ℤ)
    (s0 : ℚ) (r : Texel) (o : ℤ × ℤ) : Texel :=
  let oc : ℤ × ℤ := (c.1 + o.1 * stp, c.2 + o.2 * stp)
  if inBounds size oc then
    let ot := src oc
    if ot.z ≠ 0 then
      if qsgn r.z ≠ qsgn ot.z then
        let d2 := sqDist c oc
        if d2 < |r.z| then ⟨oc, s0 * d2⟩ else r
      else if ot.seed ≠ oc then
        let d2 := sqDist c ot.seed
        if d2 < |r.z| then ⟨ot.seed, s0 * d2⟩ else r
      else r
    else r
  else r

/-- The output record for an in-mask pixel as claim C2 describes it: examine
the 8 neighbors at offsets of plus-minus step per axis in source order,
folding the claimed candidate rule from the prior record of the pixel, with
the original sign taken from that prior record. -/
def jfaSpecPixel (size : ℤ × ℤ) (stp : ℤ) (src : ℤ × ℤ → Texel)
    (c : ℤ × ℤ) : Texel :=
  let r0 := src c
  let s0 := qsgn r0.z
  jfaOffsets.foldl (jfaSpecVisit size src stp c s0) r0

/-- texelFetch on the coverage mask: out-of-bounds reads return 0. -/
def maskFetch (size : ℤ × ℤ) (m : ℤ × ℤ → ℚ) (c : ℤ × ℤ) : ℚ :=
  if inBounds size c then m c else 0

/-- The offsets visited by the ExpandMaskMaterial loop: x outer from -1 to 1,
y inner, with the center (0,0) skipped by the continue. -/
def expandOffsets : List (ℤ × ℤ) :=
  [(-1, -1), (-1, 0), (-1, 1), (0, -1), (0, 1), (1, -1), (1, 0), (1, 1)]

/-- ExpandMaskMaterial fragment at one texel: outputs 1 if any of the 8
neighbors reads nonzero (the texel itself is skipped), else 0. -/
def expandMask (size : ℤ × ℤ) (m : ℤ × ℤ → ℚ) (c : ℤ × ℤ) : ℚ :=
  if expandOffsets.any (fun o => maskFetch size m (c.1 + o.1, c.2 + o.2) != 0)
    then 1 else 0

/-- Contents of the mask render target after one expand pass: the shader output
at in-bounds texels; outside the target there are no texels (taken as 0,
consistent with maskFetch). -/
def expandPass (size : ℤ × ℤ) (m : ℤ × ℤ → ℚ) : ℤ × ℤ → ℚ :=
  fun c => if inBounds size c then expandMask size m c else 0

/-- A coverage mask in which every in-bounds nonzero texel has at least one
in-bounds nonzero 8-neighbor (no isolated texels). -/
def NoIsolated (size : ℤ × ℤ) (m : ℤ × ℤ → ℚ) : Prop :=
  ∀ c, inBounds size c → m c ≠ 0 →
    ∃ o ∈ expandOffsets, inBounds size (c.1 + o.1, c.2 + o.2) ∧
      m (c.1 + o.1, c.2 + o.2) ≠ 0

/-- EffectMaterial outline value before the final clamp, with w = 0.5:
smoothstep(thickness + w, thickness - w, dist) *
smoothstep(-w - 1.0, w - 1.0, dist). -/
def effectVal (thickness dist : ℚ) : ℚ :=
  smoothstepG (thickness + 1 / 2) (thickness - 1 / 2) dist *
    smoothstepG (-(1 / 2) - 1) (1 / 2 - 1) dist

/-- Final outline opacity of EffectMaterial: gl_FragColor.a = clamp(val, 0, 1). -/
def effectAlpha (thickness dist : ℚ) : ℚ := qclamp (effectVal thickness dist) 0 1

/-- JS Math.round, which rounds half toward positive infinity: floor(x + 1/2). -/
def jsRound (q : ℚ) : ℤ := ⌊q + 1 / 2⌋

/-- OutlineEffect.render: physical dilation pass count
Math.max(1, Math.round(this.thickness * renderer.getPixelRatio())). -/
def physicalThickness (thickness dpr : ℚ) : ℤ := max 1 (jsRound (thickness * dpr))

/-- Clamp an integer coordinate component to [lo, hi]. -/
def clampI (lo hi v : ℤ) : ℤ := max lo (min v hi)

/-- texture2D read of DilateMaterial: the render targets use the default
clamp-to-edge wrapping with nearest filtering, so a UV one texel outside the
target clamps to the edge texel. -/
def dilateFetch (size : ℤ × ℤ) (m : ℤ × ℤ → ℚ) (c : ℤ × ℤ) : ℚ :=
  m (clampI 0 (size.1 - 1) c.1, clampI 0 (size.2 - 1) c.2)

/-- DilateMaterial fragment: val = max(center, max(right, max(left, max(up,
down)))), the 4-neighbor maximum filter including the center texel. -/
def dilateMask (size : ℤ × ℤ) (m : ℤ × ℤ → ℚ) (c : ℤ × ℤ) : ℚ :=
  max (dilateFetch size m c)
    (max (dilateFetch size m (c.1 + 1, c.2))
      (max (dilateFetch size m (c.1 - 1, c.2))
        (max (dilateFetch size m (c.1, c.2 + 1))
          (dilateFetch size m (c.1, c.2 - 1)))))

/-- The dilation ping-pong loop of OutlineEffect.render after its first
iteration: each remaining iteration writes the dilation of the read buffer
into the write buffer and swaps the two.  Arguments are the current contents
of the read and write targets; the result is the contents of the read target
when the loop ends. -/
def dilateRun (size : ℤ × ℤ) : ℕ → (ℤ × ℤ → ℚ) → (ℤ × ℤ → ℚ) → (ℤ × ℤ → ℚ)
  | 0, read, _ => read
  | k + 1, read, _ => dilateRun size k (dilateMask size read) read

/-- Contents of readTarget after the full dilation loop of
OutlineEffect.render with n iterations: iteration i = 0 reads maskTarget and
writes dilateA, then read = dilateA and write = dilateB (stale contents b0);
later iterations swap.  With n = 0 the loop body never runs and readTarget
is still maskTarget. -/
def outlineDilated (size : ℤ × ℤ) (mask b0 : ℤ × ℤ → ℚ) (n : ℕ) : ℤ × ℤ → ℚ :=
  match n with
  | 0 => mask
  | k + 1 => dilateRun size k (dilateMask size mask) b0

/-- CompositeOutlineMaterial fragment: outline = step(0.5, d) * (1 - step(0.5, o)),
and gl_FragColor = vec4(color, 1) * outline, so the written alpha is the
outline factor itself. -/
def compositeOutline (d o : ℚ) : ℚ := stepG (1 / 2) d * (1 - stepG (1 / 2) o)

/-- Per-pixel result of the OutlineEffect.render pipeline: composite the
dilated mask after physicalThickness passes against the original mask. -/
def outlineRender (size : ℤ × ℤ) (mask b0 : ℤ × ℤ → ℚ) (thickness dpr : ℚ)
    (c : ℤ × ℤ) : ℚ :=
  compositeOutline
    (outlineDilated size mask b0 (physicalThickness thickness dpr).toNat c)
    (mask c)

/-- A 3-component vector over exact rationals (THREE.Vector3 idealized). -/
structure V3 where
  x : ℚ
  y : ℚ
  z : ℚ
deriving DecidableEq

/-- A 4x4 matrix over exact rationals, in the m(row)(column) naming of
THREE.Matrix4. -/
structure M4 where
  m11 : ℚ
  m12 : ℚ
  m13 : ℚ
  m14 : ℚ
  m21 : ℚ
  m22 : ℚ
  m23 : ℚ
  m24 : ℚ
  m31 : ℚ
  m32 : ℚ
  m33 : ℚ
  m34 : ℚ
  m41 : ℚ
  m42 : ℚ
  m43 : ℚ
  m44 : ℚ

/-- THREE.Vector3.applyMatrix4: multiply by the matrix and divide by the
resulting homogeneous w.  Division is the total division of the rationals;
the degenerate case w = 0 does not arise for the camera poses the claim is
about and the same operation is used on both sides of the comparison. -/
def applyMatrix4 (m : M4) (v : V3) : V3 :=
  let w := m.m41 * v.x + m.m42 * v.y + m.m43 * v.z + m.m44
  ⟨(m.m11 * v.x + m.m12 * v.y + m.m13 * v.z + m.m14) / w,
   (m.m21 * v.x + m.m22 * v.y + m.m23 * v.z + m.m24) / w,
   (m.m31 * v.x + m.m32 * v.y + m.m33 * v.z + m.m34) / w⟩

/-- THREE.Vector3.project(camera): apply the inverse world (view) matrix,
then the projection matrix. -/
def projectCam (viewInv proj : M4) (v : V3) : V3 :=
  applyMatrix4 proj (applyMatrix4 viewInv v)

/-- The scissor half-extent delta computed by JumpFloodEffect.render,
translated statement by statement: offset = sphere center taken to view
space, displaced by the radius on x and y, then taken through the projection
matrix; center = sphere center projected through the camera; both are mapped
by multiplyScalar(0.5) and += 0.5 to normalized screen coordinates; width
and height are the target size divided by the device pixel ratio; delta =
max(|center.x - offset.x| * width, |center.y - offset.y| * height) +
thickness. -/
def scissorDelta (viewInv proj : M4) (center : V3) (radius : ℚ)
    (targetW targetH dpr thickness : ℚ) : ℚ :=
  let offset0 := applyMatrix4 viewInv center
  let offset1 : V3 := ⟨offset0.x + radius, offset0.y + radius, offset0.z⟩
  let offset2 := applyMatrix4 proj offset1
  let pc := projectCam viewInv proj center
  let c1 : V3 := ⟨pc.x * (1 / 2) + 1 / 2, pc.y * (1 / 2) + 1 / 2, 0⟩
  let o1 : V3 := ⟨offset2.x * (1 / 2) + 1 / 2, offset2.y * (1 / 2) + 1 / 2, 0⟩
  let width := targetW / dpr
  let height := targetH / dpr
  max (|c1.x - o1.x| * width) (|c1.y - o1.y| * height) + thickness

/-- The same quantity as the specification words it: center is the projection
of the world bounding-sphere center to normalized screen coordinates
((ndc + 1) / 2 per axis); offset is the projection of that center displaced
by the sphere radius along camera-relative X and Y; width and height are the
output dimensions in logical (pre-device-pixel-ratio) pixels; the half-extent
is max(|center.x - offset.x| * width, |center.y - offset.y| * height) +
thickness. -/
def scissorDeltaSpec (viewInv proj : M4) (center : V3) (radius : ℚ)
    (targetW targetH dpr thickness : ℚ) : ℚ :=
  let camCenter := applyMatrix4 viewInv center
  let offsetNdc := applyMatrix4 proj
    ⟨camCenter.x + radius, camCenter.y + radius, camCenter.z⟩
  let centerNdc := applyMatrix4 proj camCenter
  let cs : ℚ × ℚ := ((centerNdc.x + 1) / 2, (centerNdc.y + 1) / 2)
  let os : ℚ × ℚ := ((offsetNdc.x + 1) / 2, (offsetNdc.y + 1) / 2)
  let width := targetW / dpr
  let height := targetH / dpr
  max (|cs.1 - os.1| * width) (|cs.2 - os.2| * height) + thickness

/-- Renderer and scene state that claim C4 speaks about: clear color and
alpha, the scissor-test enable, the auto-clear flag, and the visibility
flags of the mesh/line/points nodes of the scene. -/
structure RendState where
  clearColor : ℤ
  clearAlpha : ℚ
  scissorTest : Bool
  autoClear : Bool
  vis : List Bool
deriving DecidableEq

/-- The traversal of the selected object setting obj.visible = true on the
nodes of its subtree; sel marks subtree membership per scene node. -/
def showSelected (sel vis : List Bool) : List Bool :=
  List.zipWith (fun s v => if s then true else v) sel vis

/-- The first traversal of JumpFloodEffect.render: hide every mesh node of
the scene, then make the selected subtree visible again. -/
def hideAllShowSelected (sel vis : List Bool) : List Bool :=
  showSelected sel (vis.map fun _ => false)

/-- State trace of JumpFloodEffect.render, with every state mutation of the
body in source order.  The GPU draw calls are the points where an exception
can leave the function early; fail i = true means the i-th such call throws,
and the result is the state the caller observes then (the body has no
try/finally, so nothing is rolled back).  Draw-call groups without any state
mutation between them (the four expand-mask passes, the flood-loop passes)
are collapsed to one fail index each, which is exact for the state modelled
here.  Indices: 0 mask render, 1 expand-mask passes, 2 full-screen seed
pass, 3 selected-object seed render, 4 flood-loop passes, 5 final effect
pass. -/
def jfRender (fail : ℕ → Bool) (hasSelection : Bool) (sel : List Bool)
    (s0 : RendState) : RendState :=
  if !hasSelection then s0 else
  let savedAutoClear := s0.autoClear
  let savedColor := s0.clearColor
  let savedAlpha := s0.clearAlpha
  let savedVis := s0.vis
  let s1 := { s0 with vis := hideAllShowSelected sel s0.vis }
  let s2 := { s1 with clearColor := 0, clearAlpha := 0 }
  if fail 0 then s2 else
  let s3 := { s2 with vis := savedVis }
  if fail 1 then s3 else
  let s4 := { s3 with scissorTest := true }
  if fail 2 then s4 else
  let s5 := { s4 with vis := showSelected sel s4.vis }
  let s6 := { s5 with autoClear := false }
  if fail 3 then s6 else
  let s7 := { s6 with autoClear := true, vis := savedVis }
  if fail 4 then s7 else
  let s8 := { s7 with autoClear := false }
  if fail 5 then s8 else
  let s9 := { s8 with autoClear := savedAutoClear }
  let s10 := { s9 with scissorTest := false }
  { s10 with clearColor := savedColor, clearAlpha := savedAlpha }

/-- A concrete pre-call renderer state with the scissor test enabled. -/
def preState : RendState := ⟨7, 1, true, true, [true, false]⟩

/-- A coverage mask holding a single isolated nonzero texel at (1, 1). -/
def isolatedMask : ℤ × ℤ → ℚ := fun c => if c = (1, 1) then 1 else 0

/-- A mask with two horizontally adjacent nonzero texels, used to discharge
the NoIsolated hypothesis on a concrete input. -/
def pairMask : ℤ × ℤ → ℚ := fun c => if c = (1, 1) ∨ c = (2, 1) then 1 else 0

/-- Source propagation buffer for the discard counterexample: every pixel
seeded exterior with its own coordinate. -/
def cexSrc : ℤ × ℤ → Texel := fun c => ⟨c, sentinelSq⟩

/-- Stale destination buffer for the discard counterexample: an all-zero
record everywhere. -/
def cexDst : ℤ × ℤ → Texel := fun _ => ⟨(0, 0), 0⟩

/-- Source buffer used by the witness of the flood-pass refinement theorem:
one interior seed at (0, 0) on an otherwise exterior-seeded buffer. -/
def wSrc : ℤ × ℤ → Texel :=
  fun c => ⟨c, if c = (0, 0) then -sentinelSq else sentinelSq⟩

theorem qsgn_cases (q : ℚ) : qsgn q = -1 ∨ qsgn q = 0 ∨ qsgn q = 1 := by
  unfold qsgn; split_ifs <;> simp

theorem qsgn_mul_abs (q : ℚ) : qsgn q * q = |q| := by
  unfold qsgn
  split_ifs with h1 h2
  · rw [abs_of_neg h1]; ring
  · subst h2; simp
  · rw [abs_of_pos (lt_of_le_of_ne (not_lt.mp h1) (Ne.symm h2))]; ring

theorem sqDist_nonneg (a b : ℤ × ℤ) : 0 ≤ sqDist a b := by
  unfold sqDist
  have h : (0 : ℤ) ≤ (a.1 - b.1) ^ 2 + (a.2 - b.2) ^ 2 := by positivity
  exact_mod_cast h

theorem qsgn_update {s0 d2 : ℚ} (hs0 : s0 = -1 ∨ s0 = 0 ∨ s0 = 1)
    (hd2 : 0 ≤ d2) : qsgn (s0 * d2) = s0 ∨ s0 * d2 = 0 := by
  rcases eq_or_lt_of_le hd2 with h | h
  · right; rw [← h, mul_zero]
  · rcases hs0 with h1 | h1 | h1
    · left; subst h1; unfold qsgn; rw [if_pos (by nlinarith)]
    · right; subst h1; rw [zero_mul]
    · left; subst h1; rw [one_mul]; unfold qsgn
      rw [if_neg (not_lt.mpr hd2), if_neg (ne_of_gt h)]

theorem qclamp_mem {x lo hi : ℚ} (h : lo ≤ hi) :
    lo ≤ qclamp x lo hi ∧ qclamp x lo hi ≤ hi :=
  ⟨le_min (le_max_right _ _) h, min_le_right _ _⟩

theorem qclamp_of_mem {x lo hi : ℚ} (h0 : lo ≤ x) (h1 : x ≤ hi) :
    qclamp x lo hi = x := by
  unfold qclamp; rw [max_eq_left h0, min_eq_left h1]

theorem smoothstepG_mem (e0 e1 x : ℚ) :
    0 ≤ smoothstepG e0 e1 x ∧ smoothstepG e0 e1 x ≤ 1 := by
  obtain ⟨h0, h1⟩ := @qclamp_mem ((x - e0) / (e1 - e0)) 0 1 (by norm_num)
  simp only [smoothstepG]
  set t := qclamp ((x - e0) / (e1 - e0)) 0 1 with ht
  constructor
  · nlinarith
  · nlinarith [mul_nonneg (mul_nonneg (sub_nonneg.mpr h1) (sub_nonneg.mpr h1)) (by linarith : (0:ℚ) ≤ 1 + 2 * t)]

theorem floodSteps_of_le_one {s : ℕ} (h : s ≤ 1) : floodSteps s = [s] := by
  rw [floodSteps, dif_pos h]

theorem floodSteps_of_lt {s : ℕ} (h : 1 < s) :
    floodSteps s = s :: floodSteps (ceilHalf s) := by
  rw [floodSteps, dif_neg (by omega : ¬ s ≤ 1)]

theorem floodSteps_cons (s : ℕ) : ∃ t, floodSteps s = s :: t := by
  by_cases h : s ≤ 1
  · exact ⟨[], floodSteps_of_le_one h⟩
  · exact ⟨_, floodSteps_of_lt (by omega)⟩

theorem floodSteps_length :
    ∀ s : ℕ, 1 ≤ s → (floodSteps s).length = Nat.clog 2 s + 1 := by
  intro s
  induction s using Nat.strong_induction_on with
  | _ s ih =>
    intro h1
    by_cases h : s ≤ 1
    · have hs : s = 1 := by omega
      subst hs
      rw [floodSteps_of_le_one le_rfl]
      simp [Nat.clog_one_right]
    · have h2 : 2 ≤ s := by omega
      have hlt : ceilHalf s < s := by simp only [ceilHalf]; omega
      have hge : 1 ≤ ceilHalf s := by simp only [ceilHalf]; omega
      have harg : (s + 2 - 1) / 2 = ceilHalf s := by simp only [ceilHalf]; omega
      rw [floodSteps_of_lt (by omega), List.length_cons, ih _ hlt hge,
        Nat.clog_of_two_le (by norm_num) h2, harg]

theorem floodSteps_getLast :
    ∀ s : ℕ, 1 ≤ s → (floodSteps s).getLast? = some 1 := by
  intro s
  induction s using Nat.strong_induction_on with
  | _ s ih =>
    intro h1
    by_cases h : s ≤ 1
    · have hs : s = 1 := by omega
      subst hs
      rw [floodSteps_of_le_one le_rfl]
      rfl
    · have hlt : ceilHalf s < s := by simp only [ceilHalf]; omega
      have hge : 1 ≤ ceilHalf s := by simp only [ceilHalf]; omega
      obtain ⟨t, ht⟩ := floodSteps_cons (ceilHalf s)
      rw [floodSteps_of_lt (by omega), ht, List.getLast?_cons_cons, ← ht]
      exact ih _ hlt hge

theorem floodSteps_chain :
    ∀ s : ℕ, List.Chain' (fun a b => b = ceilHalf a) (floodSteps s) := by
  intro s
  induction s using Nat.strong_induction_on with
  | _ s ih =>
    by_cases h : s ≤ 1
    · rw [floodSteps_of_le_one h]
      simp
    · have hlt : ceilHalf s < s := by simp only [ceilHalf]; omega
      obtain ⟨t, ht⟩ := floodSteps_cons (ceilHalf s)
      rw [floodSteps_of_lt (by omega), ht, List.chain'_cons]
      exact ⟨rfl, ht ▸ ih _ hlt⟩

/-- C3: the flood loop of JumpFloodEffect.render starts at
min(max(bufferWidth, bufferHeight), thickness), each iteration replaces the
step by ceil(step / 2), and for every starting step of at least 1 the loop
executes its last iteration at step = 1 and stops after exactly
ceil(log2(step0)) + 1 iterations. -/
theorem flood_schedule (w h t : ℕ) :
    floodStart w h t = min (max w h) t ∧
    (∀ s : ℕ, 1 ≤ s →
      List.Chain' (fun a b => b = ceilHalf a) (floodSteps s) ∧
      (floodSteps s).getLast? = some 1 ∧
      (floodSteps s).length = Nat.clog 2 s + 1) :=
  ⟨rfl, fun s hs => ⟨floodSteps_chain s, floodSteps_getLast s hs, floodSteps_length s hs⟩⟩

/-- Witness for flood_schedule at buffer 1920x1080 and thickness 30. -/
theorem flood_schedule_witness :
    floodStart 1920 1080 30 = min (max 1920 1080) 30 ∧
    (List.Chain' (fun a b => b = ceilHalf a) (floodSteps 30) ∧
      (floodSteps 30).getLast? = some 1 ∧
      (floodSteps 30).length = Nat.clog 2 30 + 1) :=
  ⟨(flood_schedule 1920 1080 30).1, (flood_schedule 1920 1080 30).2 30 (by norm_num)⟩

/-- C1 counterexample: the full-screen seed pass (an uncovered pixel) writes a
POSITIVE marker, and the selected-object pass (a covered pixel) writes a
NEGATIVE one, the opposite of the signs the claim states. -/
theorem seed_sign_cex :
    0 < (seedStage (fun _ => false) (0, 0)).z ∧
    (seedStage (fun _ => true) (0, 0)).z < 0 := by
  constructor <;> norm_num [seedStage, seedFrag, seedNegUniform, sentinelSq]

/-- C1 amended: in the seed-initialization stage every scissor pixel receives
its own coordinate; the full-screen pass leaves uncovered pixels with marker
+1e4 (exterior, unresolved), the selected-object pass overwrites covered
pixels with marker -1e4 (interior, unresolved); the sign is the inside or
outside flag and the pre-propagation magnitude is the same sentinel in both
sub-steps. -/
theorem seed_stage_amended (covered : ℤ × ℤ → Bool) (c : ℤ × ℤ) :
    (seedStage covered c).seed = c ∧
    (seedStage covered c).z = (if covered c then (-1 : ℚ) else 1) * sentinelSq ∧
    |(seedStage covered c).z| = sentinelSq := by
  by_cases h : covered c <;>
    simp [seedStage, seedFrag, seedNegUniform, h, sentinelSq] <;> norm_num

/-- C7 counterexample: with thickness 5 the opacity of a pixel at signed
distance exactly 5 is 1/2, the midpoint of the falloff band, not
approximately 1. -/
theorem effect_opacity_cex :
    effectAlpha 5 5 = 1 / 2 ∧ ¬ ((9 : ℚ) / 10 ≤ effectAlpha 5 5) := by
  constructor <;> norm_num [effectAlpha, effectVal, smoothstepG, qclamp]

/-- C7 amended: the outline opacity equals the product
smoothstep(thickness + 0.5, thickness - 0.5, dist) * smoothstep(-1.5, -0.5,
dist) (the final clamp is a no-op); with thickness 5 a pixel at distance 5
has opacity exactly 1/2 (the peak 1 is attained on the plateau, e.g. at
distance 4) and a pixel at distance 20 has opacity exactly 0. -/
theorem effect_opacity_amended (t d : ℚ) :
    effectAlpha t d =
      smoothstepG (t + 1 / 2) (t - 1 / 2) d * smoothstepG (-(3 / 2)) (-(1 / 2)) d ∧
    effectAlpha 5 5 = 1 / 2 ∧ effectAlpha 5 20 = 0 ∧ effectAlpha 5 4 = 1 := by
  refine ⟨?_, ?_, ?_, ?_⟩
  · obtain ⟨ha0, ha1⟩ := smoothstepG_mem (t + 1 / 2) (t - 1 / 2) d
    obtain ⟨hb0, hb1⟩ := smoothstepG_mem (-(1 / 2) - 1) (1 / 2 - 1) d
    unfold effectAlpha effectVal
    rw [qclamp_of_mem (mul_nonneg ha0 hb0) (by nlinarith)]
    congr 1 <;> norm_num
  · norm_num [effectAlpha, effectVal, smoothstepG, qclamp]
  · norm_num [effectAlpha, effectVal, smoothstepG, qclamp]
  · norm_num [effectAlpha, effectVal, smoothstepG, qclamp]

/-- C10: the dilation pass count of OutlineEffect.render equals
max(1, round(thickness * pixelRatio)); it is always at least 1, and whenever
the rounded physical size is 0 or below the count is exactly 1, so a
too-thin configuration still dilates once. -/
theorem outline_pass_count (t dpr : ℚ) :
    physicalThickness t dpr = max 1 (jsRound (t * dpr)) ∧
    1 ≤ physicalThickness t dpr ∧
    (jsRound (t * dpr) ≤ 0 → physicalThickness t dpr = 1) := by
  refine ⟨rfl, le_max_left _ _, fun h => ?_⟩
  unfold physicalThickness
  exact max_eq_left (le_trans h (by norm_num))

/-- Witness for outline_pass_count at thickness 1/5 and pixel ratio 1, where
the physical size rounds to 0 yet one pass still runs. -/
theorem outline_pass_count_witness :
    physicalThickness (1 / 5) 1 = max 1 (jsRound ((1 / 5) * 1)) ∧
    1 ≤ physicalThickness (1 / 5) 1 ∧
    physicalThickness (1 / 5) 1 = 1 :=
  ⟨(outline_pass_count (1 / 5) 1).1, (outline_pass_count (1 / 5) 1).2.1,
    (outline_pass_count (1 / 5) 1).2.2 (by norm_num [jsRound])⟩

/-- C8: the scissor half-extent computed by JumpFloodEffect.render equals the
formula of the specification: max(|center.x - offset.x| * width,
|center.y - offset.y| * height) + thickness over the normalized screen
projections of the bounding-sphere center and of the center displaced by the
radius along camera-relative X and Y, with width and height in logical
pixels. -/
theorem scissor_delta_matches_spec (viewInv proj : M4) (center : V3)
    (radius targetW targetH dpr thickness : ℚ) :
    scissorDelta viewInv proj center radius targetW targetH dpr thickness =
      scissorDeltaSpec viewInv proj center radius targetW targetH dpr thickness := by
  simp only [scissorDelta, scissorDeltaSpec, projectCam]
  congr 2 <;> congr 1 <;> ring

/-- C4 counterexample: a successful JumpFloodEffect.render call with the
scissor test enabled beforehand returns with the scissor test disabled, so
the renderer state is not restored to its pre-call value even on the normal
exit path. -/
theorem render_state_cex :
    (jfRender (fun _ => false) true [false, true] preState).scissorTest = false ∧
    preState.scissorTest = true := by
  constructor <;> rfl

/-- C4 amended: on the normal (non-throwing) exit path JumpFloodEffect.render
restores clear color, clear alpha, the auto-clear flag and every scene-node
visibility flag to their pre-call values, but unconditionally disables the
scissor test instead of restoring it; with no active selection the call
leaves all state untouched.  (On throwing exits nothing is rolled back,
since the body has no try/finally.) -/
theorem render_restores_amended (fail : ℕ → Bool) (hasSelection : Bool)
    (sel : List Bool) (s0 : RendState) (hfail : ∀ i, fail i = false) :
    (jfRender fail hasSelection sel s0).clearColor = s0.clearColor ∧
    (jfRender fail hasSelection sel s0).clearAlpha = s0.clearAlpha ∧
    (jfRender fail hasSelection sel s0).autoClear = s0.autoClear ∧
    (jfRender fail hasSelection sel s0).vis = s0.vis ∧
    (hasSelection = true → (jfRender fail hasSelection sel s0).scissorTest = false) ∧
    (hasSelection = false → jfRender fail hasSelection sel s0 = s0) := by
  cases hasSelection
  · simp [jfRender]
  · simp [jfRender, hfail]

/-- Witness for render_restores_amended on a concrete non-throwing run. -/
theorem render_restores_witness :
    (jfRender (fun _ => false) true [false] preState).clearColor = preState.clearColor ∧
    (jfRender (fun _ => false) true [false] preState).clearAlpha = preState.clearAlpha ∧
    (jfRender (fun _ => false) true [false] preState).autoClear = preState.autoClear ∧
    (jfRender (fun _ => false) true [false] preState).vis = preState.vis ∧
    (true = true → (jfRender (fun _ => false) true [false] preState).scissorTest = false) ∧
    (true = false → jfRender (fun _ => false) true [false] preState = preState) :=
  render_restores_amended (fun _ => false) true [false] preState (fun _ => rfl)

theorem maskFetch_ne_zero {size : ℤ × ℤ} {m : ℤ × ℤ → ℚ} {c : ℤ × ℤ}
    (h : maskFetch size m c ≠ 0) : inBounds size c ∧ m c ≠ 0 := by
  unfold maskFetch at h
  by_cases hb : inBounds size c
  · exact ⟨hb, by simpa [hb] using h⟩
  · simp [hb] at h

theorem expandMask_ne_zero_iff (size : ℤ × ℤ) (m : ℤ × ℤ → ℚ) (c : ℤ × ℤ) :
    expandMask size m c ≠ 0 ↔ ∃ o ∈ expandOffsets,
      inBounds size (c.1 + o.1, c.2 + o.2) ∧ m (c.1 + o.1, c.2 + o.2) ≠ 0 := by
  constructor
  · intro hne
    unfold expandMask at hne
    split_ifs at hne with h
    · rw [List.any_eq_true] at h
      obtain ⟨o, ho, hv⟩ := h
      rw [bne_iff_ne] at hv
      obtain ⟨hb, hm⟩ := maskFetch_ne_zero hv
      exact ⟨o, ho, hb, hm⟩
    · exact absurd rfl hne
  · rintro ⟨o, ho, hb, hm⟩
    unfold expandMask
    have hany : expandOffsets.any
        (fun o => maskFetch size m (c.1 + o.1, c.2 + o.2) != 0) = true := by
      rw [List.any_eq_true]
      exact ⟨o, ho, by rw [bne_iff_ne]; simpa [maskFetch, hb] using hm⟩
    rw [if_pos hany]
    norm_num

theorem expandPass_ne_zero_iff (size : ℤ × ℤ) (m : ℤ × ℤ → ℚ) (c : ℤ × ℤ)
    (hc : inBounds size c) :
    expandPass size m c ≠ 0 ↔ ∃ o ∈ expandOffsets,
      inBounds size (c.1 + o.1, c.2 + o.2) ∧ m (c.1 + o.1, c.2 + o.2) ≠ 0 := by
  unfold expandPass
  rw [if_pos hc]
  exact expandMask_ne_zero_iff size m c

theorem expandPass_superset {size : ℤ × ℤ} {m : ℤ × ℤ → ℚ}
    (hni : NoIsolated size m) :
    ∀ c, inBounds size c → m c ≠ 0 → expandPass size m c ≠ 0 := by
  intro c hc hm
  rw [expandPass_ne_zero_iff size m c hc]
  exact hni c hc hm

theorem noIsolated_expandPass {size : ℤ × ℤ} {m : ℤ × ℤ → ℚ}
    (hni : NoIsolated size m) : NoIsolated size (expandPass size m) := by
  intro c hc hne
  rw [expandPass_ne_zero_iff size m c hc] at hne
  obtain ⟨o, ho, hb, hm⟩ := hne
  exact ⟨o, ho, hb, expandPass_superset hni _ hb hm⟩

theorem noIsolated_iterate {size : ℤ × ℤ} {m : ℤ × ℤ → ℚ}
    (hni : NoIsolated size m) (k : ℕ) :
    NoIsolated size ((expandPass size)^[k] m) := by
  induction k with
  | zero => simpa using hni
  | succ k ih =>
    rw [Function.iterate_succ_apply']
    exact noIsolated_expandPass ih

/-- C5 counterexample: the expand-mask shader skips the center texel, so a
mask holding a single isolated nonzero texel is NOT a subset of its own
dilation: the texel (1,1) is nonzero before the pass and zero after it. -/
theorem expand_mask_cex :
    isolatedMask (1, 1) ≠ 0 ∧ expandPass (3, 3) isolatedMask (1, 1) = 0 := by
  constructor
  · norm_num [isolatedMask]
  · decide

/-- C5 amended: one expand invocation outputs 1 for a texel exactly when some
in-bounds 8-connected NEIGHBOR (the texel itself excluded) is nonzero, and
for every mask in which each nonzero texel has at least one nonzero
8-neighbor, the nonzero set after k applications contains the one after
k - 1 applications for every k of at least 1; a mask with an isolated
nonzero texel loses that texel instead. -/
theorem expand_mask_amended (size : ℤ × ℤ) (m : ℤ × ℤ → ℚ) :
    (∀ c, inBounds size c → (expandPass size m c ≠ 0 ↔ ∃ o ∈ expandOffsets,
      inBounds size (c.1 + o.1, c.2 + o.2) ∧ m (c.1 + o.1, c.2 + o.2) ≠ 0)) ∧
    (NoIsolated size m → ∀ k : ℕ, ∀ c, inBounds size c →
      (expandPass size)^[k] m c ≠ 0 → (expandPass size)^[k + 1] m c ≠ 0) := by
  constructor
  · intro c hc
    exact expandPass_ne_zero_iff size m c hc
  · intro hni k c hc hne
    rw [Function.iterate_succ_apply']
    exact expandPass_superset (noIsolated_iterate hni k) c hc hne

/-- Witness for expand_mask_amended: a two-texel mask with no isolated texel
keeps its texel (1,1) across one dilation pass. -/
theorem expand_mask_amended_witness :
    (expandPass (4, 3))^[0 + 1] pairMask (1, 1) ≠ 0 :=
  (expand_mask_amended (4, 3) pairMask).2
    (by
      intro c hc hm
      have hcc : c = (1, 1) ∨ c = (2, 1) := by
        by_contra hcon
        push_neg at hcon
        unfold pairMask at hm
        rw [if_neg (not_or.mpr hcon)] at hm
        exact hm rfl
      rcases hcc with h | h
      · subst h
        exact ⟨(1, 0), by decide, by decide, by norm_num [pairMask]⟩
      · subst h
        exact ⟨(-1, 0), by decide, by decide, by norm_num [pairMask]⟩)
    0 (1, 1) (by decide) (by decide)

/-- C6: translation of the out-of-mask branch of the JFA shader evaluated at
a failing input.  The fragment executes discard, so the output buffer keeps
the stale destination record instead of receiving the prior source record:
at pixel (2,2) with mask 0 the pass outputs the stale all-zero record, which
differs from the prior record of the pixel. -/
theorem jfa_discard_drops_history :
    jfaPass (4, 4) 1 cexSrc cexDst (fun _ => 0) (2, 2) = cexDst (2, 2) ∧
    cexDst (2, 2) ≠ cexSrc (2, 2) := by
  constructor
  · unfold jfaPass
    rw [if_pos (by norm_num)]
  · decide

theorem dilateRun_eq (size : ℤ × ℤ) :
    ∀ (k : ℕ) (read write : ℤ × ℤ → ℚ),
      dilateRun size k read write = (dilateMask size)^[k] read := by
  intro k
  induction k with
  | zero =>
    intro read write
    rfl
  | succ k ih =>
    intro read write
    simp only [dilateRun]
    rw [ih, Function.iterate_succ_apply]

theorem outlineDilated_eq (size : ℤ × ℤ) (mask b0 : ℤ × ℤ → ℚ) (n : ℕ) :
    outlineDilated size mask b0 n = (dilateMask size)^[n] mask := by
  cases n with
  | zero => rfl
  | succ k =>
    simp only [outlineDilated]
    rw [dilateRun_eq, ← Function.iterate_succ_apply]

theorem compositeOutline_ne_zero_iff (d o : ℚ) :
    compositeOutline d o ≠ 0 ↔ (1 / 2 ≤ d ∧ o < 1 / 2) := by
  unfold compositeOutline stepG
  split_ifs with h1 h2 h3
  · constructor
    · intro hne
      exact absurd (by ring) hne
    · rintro ⟨ha, _⟩
      exact absurd ha (not_le.mpr h1)
  · constructor
    · intro hne
      exact absurd (by ring) hne
    · rintro ⟨ha, _⟩
      exact absurd ha (not_le.mpr h1)
  · constructor
    · intro _
      exact ⟨not_lt.mp h1, h3⟩
    · intro _
      norm_num
  · constructor
    · intro hne
      exact absurd (by ring) hne
    · rintro ⟨_, hb⟩
      exact absurd hb h3

/-- C9: the per-pixel result of the OutlineEffect.render pipeline equals the
composite of the mask dilated exactly physicalThickness times (the loop
ping-pong included) against the original mask; the outline is present at a
pixel exactly when the dilated mask reads at least 1/2 there and the
original mask reads below 1/2 (outline = dilated AND NOT original). -/
theorem outline_pipeline (size : ℤ × ℤ) (mask b0 : ℤ × ℤ → ℚ)
    (thickness dpr : ℚ) (c : ℤ × ℤ) :
    outlineRender size mask b0 thickness dpr c =
      compositeOutline
        ((dilateMask size)^[(physicalThickness thickness dpr).toNat] mask c)
        (mask c) ∧
    (outlineRender size mask b0 thickness dpr c ≠ 0 ↔
      (1 / 2 ≤ (dilateMask size)^[(physicalThickness thickness dpr).toNat] mask c ∧
        mask c < 1 / 2)) := by
  have hdil := outlineDilated_eq size mask b0 (physicalThickness thickness dpr).toNat
  constructor
  · unfold outlineRender
    rw [hdil]
  · unfold outlineRender
    rw [hdil]
    exact compositeOutline_ne_zero_iff _ _

theorem jfaVisit_eq_spec (size : ℤ × ℤ) (src : ℤ × ℤ → Texel) (stp : ℤ)
    (c : ℤ × ℤ) (s0 : ℚ) (hs0 : s0 = -1 ∨ s0 = 0 ∨ s0 = 1)
    (r : Texel) (o : ℤ × ℤ) (hinv : qsgn r.z = s0 ∨ r.z = 0) :
    jfaVisit size src stp c s0 r o = jfaSpecVisit size src stp c s0 r o ∧
    (qsgn (jfaVisit size src stp c s0 r o).z = s0 ∨
      (jfaVisit size src stp c s0 r o).z = 0) := by
  simp only [jfaVisit, jfaSpecVisit]
  by_cases hb : inBounds size (c.1 + o.1 * stp, c.2 + o.2 * stp)
  case neg =>
    simp only [if_neg hb]
    exact ⟨trivial, hinv⟩
  case pos =>
    simp only [if_pos hb]
    by_cases hz : (src (c.1 + o.1 * stp, c.2 + o.2 * stp)).z = 0
    case pos =>
      have hcond : ¬ ((src (c.1 + o.1 * stp, c.2 + o.2 * stp)).z ≠ 0) :=
        not_not_intro hz
      simp only [if_neg hcond]
      exact ⟨trivial, hinv⟩
    case neg =>
      simp only [if_pos hz]
      rcases hinv with hsg | hz0
      · have hmag : s0 * r.z = |r.z| := by rw [← hsg, qsgn_mul_abs]
        rw [hsg, hmag]
        refine ⟨rfl, ?_⟩
        split_ifs with h1 h2 h3 h4
        · exact qsgn_update hs0 (sqDist_nonneg _ _)
        · exact Or.inl hsg
        · exact qsgn_update hs0 (sqDist_nonneg _ _)
        · exact Or.inl hsg
        · exact Or.inl hsg
      · have hg1 : s0 * r.z = 0 := by rw [hz0, mul_zero]
        have hg2 : |r.z| = 0 := by rw [hz0, abs_zero]
        rw [hg1, hg2]
        constructor
        · split_ifs <;> try rfl
          all_goals
            exfalso
            linarith [sqDist_nonneg c (c.1 + o.1 * stp, c.2 + o.2 * stp),
              sqDist_nonneg c (src (c.1 + o.1 * stp, c.2 + o.2 * stp)).seed]
        · split_ifs <;> try exact Or.inr hz0
          all_goals
            exfalso
            linarith [sqDist_nonneg c (c.1 + o.1 * stp, c.2 + o.2 * stp),
              sqDist_nonneg c (src (c.1 + o.1 * stp, c.2 + o.2 * stp)).seed]

theorem jfaFold_eq_spec (size : ℤ × ℤ) (src : ℤ × ℤ → Texel) (stp : ℤ)
    (c : ℤ × ℤ) (s0 : ℚ) (hs0 : s0 = -1 ∨ s0 = 0 ∨ s0 = 1) :
    ∀ (l : List (ℤ × ℤ)) (r : Texel), (qsgn r.z = s0 ∨ r.z = 0) →
      l.foldl (jfaVisit size src stp c s0) r =
        l.foldl (jfaSpecVisit size src stp c s0) r := by
  intro l
  induction l with
  | nil =>
    intro r _
    rfl
  | cons o l ih =>
    intro r hr
    simp only [List.foldl_cons]
    obtain ⟨heq, hinv⟩ := jfaVisit_eq_spec size src stp c s0 hs0 r o hr
    rw [heq] at hinv ⊢
    exact ih _ hinv

/-- C2: for every in-bounds pixel whose coverage-mask value is at least 1/2,
the record a flood pass outputs is exactly the record the specification
describes: the 8 neighbors at offsets of plus-minus step per axis are
examined, out-of-bounds neighbors rejected, zero markers skipped, candidate
distances taken to the raster coordinate of a sign-crossing neighbor or to
the relayed seed coordinate of a same-sign neighbor, and the smallest
candidate kept, signed by the original sign of the pixel, replacing the
running result only on a strictly smaller magnitude. -/
theorem jfa_pass_refines_claim (size : ℤ × ℤ) (stp : ℤ)
    (src dst : ℤ × ℤ → Texel) (mask : ℤ × ℤ → ℚ) (c : ℤ × ℤ)
    (hin : inBounds size c) (hmask : ¬ mask c < 1 / 2) :
    jfaPass size stp src dst mask c = jfaSpecPixel size stp src c := by
  have hin' := hin
  unfold jfaPass jfaSpecPixel
  rw [if_neg hmask]
  exact jfaFold_eq_spec size src stp c (qsgn (src c).z) (qsgn_cases _)
    jfaOffsets (src c) (Or.inl rfl)

/-- Witness for jfa_pass_refines_claim on a concrete 2x2 buffer holding one
interior seed at (0,0), full coverage mask, step 1, at pixel (1,1). -/
theorem jfa_pass_refines_claim_witness :
    jfaPass (2, 2) 1 wSrc cexDst (fun _ => 1) (1, 1) =
      jfaSpecPixel (2, 2) 1 wSrc (1, 1) :=
  jfa_pass_refines_claim (2, 2) 1 wSrc cexDst (fun _ => 1) (1, 1)
    (by decide) (by norm_num)
